import Mathlib

/-!
Shallow embedding of `src/server/src/sqflint.ts` (the SQFLint client core):
the debounced scheduler (`parse` / `runLint`), the subprocess runner
(`process`), the stdout stream decoder, the position mapper
(`parsePosition`) and the comment normalizer (`parseComment`),
together with theorems settling the specification claims.

Strings that undergo character-level processing (comments, stdout chunks)
are modelled as `List Char`; scalar string fields of records are Lean
`String`s.  JavaScript `undefined`-able fields are `Option`s.  JavaScript
numbers occurring in position records are modelled as `Int`.
-/

namespace SQFLint

/-- String literal used as the `type` discriminator for error records. -/
def typeError : String := "error"

/-- String literal used as the `type` discriminator for warning records. -/
def typeWarning : String := "warning"

/-- String literal used as the `type` discriminator for variable records. -/
def typeVariable : String := "variable"

/-- Whitespace characters removed by JavaScript `String.prototype.trim`
(ASCII subset, which covers every character the claims exercise). -/
def isJsWs (c : Char) : Bool :=
  c == ' ' || c == '\t' || c == '\n' || c == '\r' || c == '\x0b' || c == '\x0c'

/-- JavaScript `String.prototype.trim`: drop whitespace from both ends. -/
def trim (s : List Char) : List Char :=
  List.rdropWhile isJsWs (List.dropWhile isJsWs s)

/-- vscode compatible position (`SQFLint.Position` in the source). -/
structure Position where
  line : Int
  character : Int
  deriving DecidableEq, Repr

/-- vscode compatible range (`SQFLint.Range` in the source). -/
structure Range where
  start : Position
  «end» : Position
  deriving DecidableEq, Repr

/-- Base message (`Message` in the source); `Error` and `Warning` add
nothing to it.  `message` is `Option` because `message.error || message.message`
can evaluate to `undefined` when both fields are absent; `range` is `Option`
because the source passes `null` when line/column are missing. -/
structure Message where
  message : Option String
  range : Option Range
  deriving DecidableEq, Repr

/-- Error in code (`SQFLint.Error` extends `Message` and adds nothing). -/
abbrev Error := Message

/-- Warning in code (`SQFLint.Warning` extends `Message` and adds nothing). -/
abbrev Warning := Message

/-- Raw position received from sqflint CLI (`RawMessagePosition`).
The source accesses indices 0 and 1 of `line` and `column`, so the
arrays are modelled as pairs. -/
structure RawMessagePosition where
  line : Int × Int
  column : Int × Int
  deriving DecidableEq, Repr

/-- Raw message received from sqflint CLI (`RawMessage`).  Every field the
decoder reads is optional at run time (`undefined` when the JSON line omits
it), hence the `Option`s. -/
structure RawMessage where
  type : Option String
  error : Option String
  message : Option String
  «variable» : Option String
  comment : Option String
  line : Option (Int × Int)
  column : Option (Int × Int)
  definitions : Option (List RawMessagePosition)
  usage : Option (List RawMessagePosition)
  deriving DecidableEq, Repr

/-- Contains info about variable used in document (`SQFLint.VariableInfo`).
The unused `ident` field of the source class is never assigned by this core
and is omitted. -/
structure VariableInfo where
  name : Option String
  comment : Option String
  definitions : List Range
  usage : List Range
  deriving DecidableEq, Repr

/-- Contains info about parse result (`SQFLint.ParseInfo`): three arrays,
all initially empty. -/
structure ParseInfo where
  errors : List Error
  warnings : List Warning
  «variables» : List VariableInfo
  deriving DecidableEq, Repr

/-- `new SQFLint.ParseInfo()`: all three arrays empty. -/
def ParseInfo.empty : ParseInfo := ⟨[], [], []⟩

/-- `SQFLint.parsePosition`: converts a raw one-based position record into a
vscode range.  Start line and character and the end line are decremented;
the end character is not. -/
def parsePosition (position : RawMessagePosition) : Range :=
  ⟨⟨position.line.1 - 1, position.column.1 - 1⟩,
   ⟨position.line.2 - 1, position.column.2⟩⟩

/-- Step 2 of `SQFLint.parseComment`: `if (comment.indexOf("//") == 0)
comment = comment.substr(2).trim()`. -/
def stripLineComment (c : List Char) : List Char :=
  if c.take 2 = ['/', '/'] then trim (c.drop 2) else c

/-- Per-line normalization inside the block-comment branch of
`SQFLint.parseComment`: trim the line, then strip one leading `*`
continuation marker and re-trim. -/
def normalizeBlockLine (cl : List Char) : List Char :=
  if (trim cl).take 1 = ['*'] then trim ((trim cl).drop 1) else trim cl

/-- Step 3 of `SQFLint.parseComment`: if the text starts with `/*`, drop the
`/*` and `*/` markers (`substr(2, length - 4)`), trim, split into lines,
normalize each line, drop lines that became empty, and rejoin with CRLF,
trimming the result. -/
def stripBlockComment (c : List Char) : List Char :=
  if c.take 2 = ['/', '*'] then
    trim (List.intercalate ['\r', '\n']
      ((((trim ((c.drop 2).take (c.length - 4))).splitOn '\n').map
          normalizeBlockLine).filter (fun l => l ≠ [])))
  else c

/-- `SQFLint.parseComment`: removes comment specific characters and trims the
comment.  The `if (comment)` truthiness guard of the source maps to the
emptiness test (an absent comment is handled by the caller via `Option.map`). -/
def parseComment (comment : List Char) : List Char :=
  if comment = [] then comment
  else stripBlockComment (stripLineComment (trim comment))

/-- JavaScript `a || b` on possibly-`undefined` strings, as used in
`message.error || message.message`: an absent or empty (falsy) left operand
yields the right operand. -/
def jsOr : Option String → Option String → Option String
  | some s, b => if s = "" then b else some s
  | none, b => b

/-- The `position` local of the stdout data handler: `if (message.line &&
message.column) position = this.parsePosition(message)`.  JavaScript arrays
are truthy, so the guard is presence of both fields. -/
def messagePosition (m : RawMessage) : Option Range :=
  match m.line, m.column with
  | some l, some c => some (parsePosition ⟨l, c⟩)
  | _, _ => none

/-- The `VariableInfo` built by the `"variable"` branch of the data handler:
`usage` and `definitions` start as empty arrays, and `for (let i in xs)`
over an absent array iterates zero times, hence `Option.getD []`. -/
def variableInfoOf (m : RawMessage) : VariableInfo :=
  { name := m.«variable»,
    comment := m.comment.map (fun s => String.mk (parseComment s.toList)),
    definitions := (m.definitions.getD []).map parsePosition,
    usage := (m.usage.getD []).map parsePosition }

/-- The classification switch of the stdout data handler: pushes an error,
a warning or a variable entry onto the run's `ParseInfo` according to the
`type` discriminator; any other discriminator leaves the result untouched. -/
def classifyMessage (info : ParseInfo) (m : RawMessage) : ParseInfo :=
  let position := messagePosition m
  if m.type = some typeError then
    { info with errors := info.errors ++ [⟨jsOr m.error m.message, position⟩] }
  else if m.type = some typeWarning then
    { info with warnings := info.warnings ++ [⟨jsOr m.error m.message, position⟩] }
  else if m.type = some typeVariable then
    { info with «variables» := info.«variables» ++ [variableInfoOf m] }
  else info

/-- `line.replace(/(\r\n|\n|\r)/gm, "")`: remove every CR and LF character. -/
def stripNewlines (l : List Char) : List Char :=
  l.filter (fun c => !(c == '\r' || c == '\n'))

/-- One iteration of the per-line loop of the stdout data handler.  The line
is skipped when it is empty after removing line-ending characters;
otherwise it is decoded and classified.  `JSON.parse` plus the cast to
`RawMessage` is platform functionality and is passed in as the decoding
function `dec`; the `try`/`catch` that swallows a parse failure (logging it)
is its `none` result, which leaves the accumulated result untouched. -/
def processLine (dec : List Char → Option RawMessage) (info : ParseInfo)
    (line : List Char) : ParseInfo :=
  if stripNewlines line = [] then info
  else
    match dec line with
    | some m => classifyMessage info m
    | none => info

/-- The stdout data handler: `data.toString().split("\n")` followed by the
per-line loop, in textual order.  (The initial `if (!data && ...)` guard of
the source is dead code — for a delivered chunk `!data` is false — and adds
no behaviour.) -/
def processData (dec : List Char → Option RawMessage) (info : ParseInfo)
    (chunk : List Char) : ParseInfo :=
  (chunk.splitOn '\n').foldl (processLine dec) info

/-- Events a launched subprocess can deliver: a stdout chunk, the `error`
event, or the `close` event with an exit code (`none` models the `null`
code of a signal-terminated child). -/
inductive ProcEvent where
  | data (chunk : List Char)
  | errorEvent
  | close (code : Option Int)
  deriving DecidableEq, Repr

/-- How a run's promise was settled, if at all. -/
inductive SettleKind where
  | resolvedClose
  | rejectedError
  deriving DecidableEq, Repr

/-- Reasons the source passes to `reject`. -/
inductive RejectReason where
  | launchFailure
  | processError
  deriving DecidableEq, Repr

/-- Terminal state of a run's promise. -/
inductive Outcome where
  | resolved (info : ParseInfo)
  | rejected (reason : RejectReason)
  | pending
  deriving DecidableEq, Repr

/-- Replay of the subprocess's event stream against the registered handlers:
`data` chunks feed the stream decoder, the first `error` event rejects and
the first `close` event resolves (a promise settles only once, so later
events no longer matter for the outcome).  The `close` handler calls
`success(info)` for every exit code; a non-zero code is only logged. -/
def settleEvents (dec : List Char → Option RawMessage) (info : ParseInfo) :
    List ProcEvent → ParseInfo × Option SettleKind
  | [] => (info, none)
  | ProcEvent.data chunk :: es => settleEvents dec (processData dec info chunk) es
  | ProcEvent.errorEvent :: _ => (info, some SettleKind.rejectedError)
  | ProcEvent.close _ :: _ => (info, some SettleKind.resolvedClose)

/-- Observable result of one `SQFLint.process` invocation. -/
structure ProcRun where
  outcome : Outcome
  info : Option ParseInfo
  written : Option (List Char)
  killed : Bool
  deriving DecidableEq, Repr

/-- `SQFLint.process` (the Process Runner).  `spawnOk` is the truthiness of
`Java.spawn`'s result; when it is false the promise is rejected at once with
the launch-failure message and no `ParseInfo` is ever created.  On a
successful launch, `contents` is written to stdin (`writeOk` tells whether
the write succeeded; on failure the source logs and calls `child.kill()`,
and nothing is written), and the event stream determines the outcome. -/
def process (dec : List Char → Option RawMessage) (spawnOk : Bool)
    (writeOk : Bool) (contents : List Char) (events : List ProcEvent) : ProcRun :=
  if spawnOk then
    let r := settleEvents dec ParseInfo.empty events
    { outcome :=
        match r.2 with
        | some SettleKind.resolvedClose => Outcome.resolved r.1
        | some SettleKind.rejectedError => Outcome.rejected RejectReason.processError
        | none => Outcome.pending,
      info := some r.1,
      written := if writeOk then some contents else none,
      killed := !writeOk }
  else
    { outcome := Outcome.rejected RejectReason.launchFailure,
      info := none, written := none, killed := false }

/-- The scheduler's pending task (`this.top`): the promise callbacks are
modelled by the identity of the promise they settle. -/
structure PendingTask where
  promiseId : Nat
  contents : List Char
  deriving DecidableEq, Repr

/-- The scheduler's mutable fields: `this.top` and `this.timeout` (the
latter reduced to whether a delay timer is currently armed). -/
structure SchedState where
  top : Option PendingTask
  timeoutArmed : Bool
  deriving DecidableEq, Repr

/-- Events driving the scheduler: a call to `SQFLint.parse` (with a fresh
promise identity and the submitted source text) or the firing of the armed
debounce timer (`runLint`). -/
inductive SchedEvent where
  | parseCall (promiseId : Nat) (contents : List Char)
  | fire
  deriving DecidableEq, Repr

/-- Observable scheduler actions: rejecting a pending promise, or handing a
task's callbacks and source text to the Process Runner. -/
inductive SchedOut where
  | rejectedPromise (promiseId : Nat)
  | started (promiseId : Nat) (contents : List Char)
  deriving DecidableEq, Repr

/-- `SQFLint.parse`: if a delay timer is armed, it is cleared and the
pending task's promise (if any) is rejected; then the new call's task
becomes `this.top` and a fresh timer is armed. -/
def parseStep (st : SchedState) (pid : Nat) (contents : List Char) :
    SchedState × List SchedOut :=
  (⟨some ⟨pid, contents⟩, true⟩,
   if st.timeoutArmed then
     match st.top with
     | some t => [SchedOut.rejectedPromise t.promiseId]
     | none => []
   else [])

/-- `SQFLint.runLint`, reachable only through the armed timer firing:
clears `this.timeout`, hands `this.top` to `SQFLint.process`, and clears
`this.top`.  With no timer armed there is nothing to fire. -/
def runLintStep (st : SchedState) : SchedState × List SchedOut :=
  if st.timeoutArmed then
    (⟨none, false⟩,
     match st.top with
     | some t => [SchedOut.started t.promiseId t.contents]
     | none => [])
  else (st, [])

/-- One scheduler transition. -/
def schedStep (st : SchedState) : SchedEvent → SchedState × List SchedOut
  | SchedEvent.parseCall pid c => parseStep st pid c
  | SchedEvent.fire => runLintStep st

/-- Replay a sequence of scheduler events, accumulating the emitted actions
in order. -/
def schedRun (st : SchedState) : List SchedEvent → SchedState × List SchedOut
  | [] => (st, [])
  | e :: es =>
    let r := schedStep st e
    let r2 := schedRun r.1 es
    (r2.1, r.2 ++ r2.2)

/-- A freshly constructed `SQFLint` instance: no pending task, no timer. -/
def initState : SchedState := ⟨none, false⟩

/-- Line-then-character order on positions, the order in which the spec
states the `start ≤ end` range invariant. -/
def posLe (a b : Position) : Prop :=
  a.line < b.line ∨ (a.line = b.line ∧ a.character ≤ b.character)

instance (a b : Position) : Decidable (posLe a b) := by
  unfold posLe; infer_instance

/-- Predicate over scheduler traces: every event is a timer firing. -/
def allFire : List SchedEvent → Bool
  | [] => true
  | e :: es => e == SchedEvent.fire && allFire es

/-- Spec-side text rule of the amended claim C8: the `message` field is the
diagnostic text exactly when the `error` field is absent or the empty
string; otherwise the `error` field is the text. -/
def amendedMessageText (m : RawMessage) : Option String :=
  if m.error = none ∨ m.error = some ("") then m.message else m.error

/- ### Helper lemmas about `trim` -/

/-- A list that is already left-trimmed stays left-trimmed after removing
elements from its right end. -/
theorem dropWhile_rdropWhile_eq_self (y : List Char)
    (h1 : List.dropWhile isJsWs y = y) :
    List.dropWhile isJsWs (List.rdropWhile isJsWs y) = List.rdropWhile isJsWs y := by
  rcases hz : List.rdropWhile isJsWs y with _ | ⟨a, t⟩
  · simp
  · have hpre := List.rdropWhile_prefix isJsWs y
    rw [hz] at hpre
    obtain ⟨r, hr⟩ := hpre
    have hy : y = a :: (t ++ r) := by rw [← hr]; simp
    have ha : ¬ isJsWs a = true := by
      intro hcon
      have h1' : List.dropWhile isJsWs (t ++ r) = a :: (t ++ r) := by
        have h1c := h1
        rw [hy, List.dropWhile_cons_of_pos hcon] at h1c
        exact h1c
      have hlen := ( List.dropWhile_suffix (l := t ++ r) isJsWs).length_le
      rw [h1'] at hlen
      simp at hlen
    rw [List.dropWhile_cons_of_neg ha]

/-- `trim` is idempotent. -/
theorem trim_trim (s : List Char) : trim (trim s) = trim s := by
  unfold trim
  rw [dropWhile_rdropWhile_eq_self _ (List.dropWhile_idempotent isJsWs s),
    List.rdropWhile_idempotent]

/-- `stripLineComment` maps trimmed input to trimmed output. -/
theorem trim_stripLineComment (c : List Char) (h : trim c = c) :
    trim (stripLineComment c) = stripLineComment c := by
  unfold stripLineComment
  split_ifs
  · exact trim_trim _
  · exact h

/-- `stripBlockComment` maps trimmed input to trimmed output. -/
theorem trim_stripBlockComment (c : List Char) (h : trim c = c) :
    trim (stripBlockComment c) = stripBlockComment c := by
  unfold stripBlockComment
  split_ifs
  · exact trim_trim _
  · exact h

/-- The output of `parseComment` is always a trimmed string. -/
theorem parseComment_trimmed (c : List Char) :
    trim (parseComment c) = parseComment c := by
  unfold parseComment
  split_ifs with h
  · rw [h]; decide
  · exact trim_stripBlockComment _ (trim_stripLineComment _ (trim_trim c))

/- ### Claims C2, C7, C9 -/

/-- Claim C2: for every raw position record with line pair `(l1, l2)` and
column pair `(c1, c2)`, `parsePosition` returns the range with start
`(l1 - 1, c1 - 1)` and end `(l2 - 1, c2)`; the end character is not
decremented while the end line is. -/
theorem claim_c2 (l1 l2 c1 c2 : Int) :
    parsePosition ⟨(l1, l2), (c1, c2)⟩ = ⟨⟨l1 - 1, c1 - 1⟩, ⟨l2 - 1, c2⟩⟩ := rfl

/-- Claim C7 counterexample: `parseComment` is not idempotent.  On the
input `"////"` one application strips only the first line-comment marker,
yielding `"//"`, and a second application strips the rest, yielding the
empty string. -/
theorem claim_c7_counterexample :
    parseComment (parseComment ['/', '/', '/', '/']) ≠
      parseComment ['/', '/', '/', '/'] := by decide

/-- Claim C7 (amended): `parseComment` is idempotent on every input whose
normalized result does not itself begin with a line-comment or
block-comment marker; re-normalizing such a result returns it unchanged. -/
theorem claim_c7 (s : List Char)
    (h1 : (parseComment s).take 2 ≠ ['/', '/'])
    (h2 : (parseComment s).take 2 ≠ ['/', '*']) :
    parseComment (parseComment s) = parseComment s := by
  have ht := parseComment_trimmed s
  by_cases h0 : parseComment s = []
  · rw [h0]; decide
  · conv_lhs => rw [parseComment]
    rw [if_neg h0, ht]
    unfold stripLineComment
    rw [if_neg h1]
    unfold stripBlockComment
    rw [if_neg h2]

/-- Witness for claim C7 at the concrete input `"hi"`. -/
theorem claim_c7_witness :
    (parseComment ['h', 'i']).take 2 ≠ ['/', '/'] ∧
    (parseComment ['h', 'i']).take 2 ≠ ['/', '*'] ∧
    parseComment (parseComment ['h', 'i']) = parseComment ['h', 'i'] :=
  ⟨by decide, by decide, claim_c7 ['h', 'i'] (by decide) (by decide)⟩

/-- Claim C9 counterexample: `parsePosition` does not always produce a
range with `start ≤ end`.  The raw record with line pair `(2, 1)` and
column pair `(1, 1)` maps to start `(1, 0)` and end `(0, 1)`, where the
start line exceeds the end line. -/
theorem claim_c9_counterexample :
    ¬ posLe (parsePosition ⟨(2, 1), (1, 1)⟩).start
        (parsePosition ⟨(2, 1), (1, 1)⟩).«end» := by decide

/-- Claim C9 (amended): every range constructed by `parsePosition` from a
well-formed raw span — nondecreasing line pair and nondecreasing column
pair — satisfies `start ≤ end` in line-then-character order. -/
theorem claim_c9 (p : RawMessagePosition)
    (h1 : p.line.1 ≤ p.line.2) (h2 : p.column.1 ≤ p.column.2) :
    posLe (parsePosition p).start (parsePosition p).«end» := by
  obtain ⟨⟨l1, l2⟩, ⟨c1, c2⟩⟩ := p
  simp only [parsePosition, posLe] at *
  omega

/-- Witness for claim C9 at the concrete raw span with lines `(1, 2)` and
columns `(3, 7)`. -/
theorem claim_c9_witness :
    ((1 : Int), (2 : Int)).1 ≤ ((1 : Int), (2 : Int)).2 ∧
    ((3 : Int), (7 : Int)).1 ≤ ((3 : Int), (7 : Int)).2 ∧
    posLe (parsePosition ⟨(1, 2), (3, 7)⟩).start (parsePosition ⟨(1, 2), (3, 7)⟩).«end» :=
  ⟨by decide, by decide, claim_c9 ⟨(1, 2), (3, 7)⟩ (by decide) (by decide)⟩

/- ### Claims C8, C10, C3 (the stream decoder) -/

/-- `jsOr` written as the case split of the amended claim C8. -/
theorem jsOr_eq_amended (a b : Option String) :
    jsOr a b = if a = none ∨ a = some ("") then b else a := by
  cases a with
  | none => simp [jsOr]
  | some s =>
    by_cases h : s = ""
    · simp [jsOr, h]
    · simp [jsOr, h]

/-- Classification of a record whose `type` is `"error"`: exactly one
diagnostic is appended to `errors`, carrying `error || message` as its text
and the mapped position. -/
theorem classifyMessage_error (info : ParseInfo) (m : RawMessage)
    (h : m.type = some typeError) :
    classifyMessage info m =
      { info with errors :=
          info.errors ++ [⟨jsOr m.error m.message, messagePosition m⟩] } := by
  simp [classifyMessage, h]

/-- Classification of a record whose `type` is `"warning"`: exactly one
diagnostic is appended to `warnings`, carrying `error || message` as its
text and the mapped position. -/
theorem classifyMessage_warning (info : ParseInfo) (m : RawMessage)
    (h : m.type = some typeWarning) :
    classifyMessage info m =
      { info with warnings :=
          info.warnings ++ [⟨jsOr m.error m.message, messagePosition m⟩] } := by
  simp [classifyMessage, h, typeError, typeWarning]

/-- Classification of a record whose `type` is `"variable"`: exactly one
`VariableInfo` is appended to `variables`. -/
theorem classifyMessage_variable (info : ParseInfo) (m : RawMessage)
    (h : m.type = some typeVariable) :
    classifyMessage info m =
      { info with «variables» := info.«variables» ++ [variableInfoOf m] } := by
  simp [classifyMessage, h, typeError, typeWarning, typeVariable]

/-- Record exhibiting the claim C8 counterexample: `type:"error"` with a
present-but-empty `error` field and a non-empty `message` field. -/
def m8ex : RawMessage :=
  ⟨some typeError, some (""), some ("m"), none, none, none, none, none, none⟩

/-- Claim C8 counterexample: for a record whose `error` field is present
but is the empty string, the decoder uses the `message` field as the
diagnostic text, not the present `error` field — `error || message` treats
any falsy `error` as absent. -/
theorem claim_c8_counterexample :
    m8ex.error = some ("") ∧
    (classifyMessage ParseInfo.empty m8ex).errors = [⟨some ("m"), none⟩] ∧
    some ("m") ≠ m8ex.error := by decide

/-- Claim C8 (amended): for every record with `type:"error"` or
`type:"warning"`, the appended diagnostic's text is the record's `error`
field whenever that field is present and non-empty; the `message` field is
used when `error` is absent or the empty string. -/
theorem claim_c8 (info : ParseInfo) (m : RawMessage) :
    (m.type = some typeError →
      (classifyMessage info m).errors =
        info.errors ++ [⟨amendedMessageText m, messagePosition m⟩]) ∧
    (m.type = some typeWarning →
      (classifyMessage info m).warnings =
        info.warnings ++ [⟨amendedMessageText m, messagePosition m⟩]) := by
  constructor
  · intro h
    rw [classifyMessage_error info m h, jsOr_eq_amended]
    rfl
  · intro h
    rw [classifyMessage_warning info m h, jsOr_eq_amended]
    rfl

/-- Witness record for the error half of claim C8: `type:"error"` with a
non-empty `error` field. -/
def m8w : RawMessage :=
  ⟨some typeError, some ("boom"), none, none, none, none, none, none, none⟩

/-- Witness record for the warning half of claim C8: `type:"warning"` with
an absent `error` field and a `message` field. -/
def m8wWarn : RawMessage :=
  ⟨some typeWarning, none, some ("hiss"), none, none, none, none, none, none⟩

/-- Witness for claim C8 at the error record `m8w` and the warning record
`m8wWarn`. -/
theorem claim_c8_witness :
    m8w.type = some typeError ∧
    (classifyMessage ParseInfo.empty m8w).errors =
      ParseInfo.empty.errors ++ [⟨amendedMessageText m8w, messagePosition m8w⟩] ∧
    m8wWarn.type = some typeWarning ∧
    (classifyMessage ParseInfo.empty m8wWarn).warnings =
      ParseInfo.empty.warnings ++
        [⟨amendedMessageText m8wWarn, messagePosition m8wWarn⟩] :=
  ⟨by decide, (claim_c8 ParseInfo.empty m8w).1 (by decide),
   by decide, (claim_c8 ParseInfo.empty m8wWarn).2 (by decide)⟩

/-- Claim C10: a valid `type:"variable"` record is always appended to
`variables`, and an absent `definitions` or `usage` field yields the
corresponding empty sequence (the iteration over the absent field runs
zero times). -/
theorem claim_c10 (info : ParseInfo) (m : RawMessage) (h : m.type = some typeVariable) :
    (classifyMessage info m).«variables» = info.«variables» ++ [variableInfoOf m] ∧
    (m.definitions = none → (variableInfoOf m).definitions = []) ∧
    (m.usage = none → (variableInfoOf m).usage = []) := by
  refine ⟨?_, ?_, ?_⟩
  · rw [classifyMessage_variable info m h]
  · intro hd
    simp [variableInfoOf, hd]
  · intro hu
    simp [variableInfoOf, hu]

/-- Witness record for claim C10: `type:"variable"` with both the
`definitions` and the `usage` field absent. -/
def m10w : RawMessage :=
  ⟨some typeVariable, none, none, some ("_x"), none, none, none, none, none⟩

/-- Witness for claim C10 at the record `m10w`. -/
theorem claim_c10_witness :
    m10w.type = some typeVariable ∧
    (classifyMessage ParseInfo.empty m10w).«variables» =
      ParseInfo.empty.«variables» ++ [variableInfoOf m10w] ∧
    (variableInfoOf m10w).definitions = [] ∧
    (variableInfoOf m10w).usage = [] := by
  have h := claim_c10 ParseInfo.empty m10w (by decide)
  exact ⟨by decide, h.1, h.2.1 rfl, h.2.2 rfl⟩

/-- Claim C3: in a chunk splitting into a valid `"error"` line, a malformed
line and another valid `"error"` line, the malformed line is discarded in
isolation: both diagnostics are appended to `errors` in textual order, and
the other sequences are untouched. -/
theorem claim_c3 (dec : List Char → Option RawMessage) (info : ParseInfo)
    (chunk a j b : List Char) (m1 m2 : RawMessage)
    (hsplit : chunk.splitOn '\n' = [a, j, b])
    (ha1 : stripNewlines a ≠ []) (ha2 : dec a = some m1)
    (ha3 : m1.type = some typeError)
    (hj1 : stripNewlines j ≠ []) (hj2 : dec j = none)
    (hb1 : stripNewlines b ≠ []) (hb2 : dec b = some m2)
    (hb3 : m2.type = some typeError) :
    (processData dec info chunk).errors =
      info.errors ++ [⟨jsOr m1.error m1.message, messagePosition m1⟩,
        ⟨jsOr m2.error m2.message, messagePosition m2⟩] ∧
    (processData dec info chunk).warnings = info.warnings ∧
    (processData dec info chunk).«variables» = info.«variables» := by
  have hA : processLine dec info a =
      { info with errors :=
          info.errors ++ [⟨jsOr m1.error m1.message, messagePosition m1⟩] } := by
    unfold processLine
    rw [if_neg ha1, ha2]
    exact classifyMessage_error info m1 ha3
  have hJ : ∀ st : ParseInfo, processLine dec st j = st := by
    intro st
    unfold processLine
    rw [if_neg hj1, hj2]
  have hB : ∀ st : ParseInfo, processLine dec st b =
      { st with errors :=
          st.errors ++ [⟨jsOr m2.error m2.message, messagePosition m2⟩] } := by
    intro st
    unfold processLine
    rw [if_neg hb1, hb2]
    exact classifyMessage_error st m2 hb3
  unfold processData
  rw [hsplit]
  simp only [List.foldl_cons, List.foldl_nil, hA, hJ, hB]
  refine ⟨?_, ?_, ?_⟩ <;> simp

/-- Error record used by the claim C3 witness for the first valid line. -/
def m3a : RawMessage :=
  ⟨some typeError, some ("one"), none, none, none, none, none, none, none⟩

/-- Error record used by the claim C3 witness for the second valid line. -/
def m3b : RawMessage :=
  ⟨some typeError, some ("two"), none, none, none, none, none, none, none⟩

/-- Concrete decoding function for the claim C3 witness: the line `E1`
decodes to `m3a`, the line `E2` decodes to `m3b`, everything else (in
particular the malformed line `?`) fails to decode. -/
def dec3ex : List Char → Option RawMessage := fun l =>
  if l = ['E', '1'] then some m3a
  else if l = ['E', '2'] then some m3b
  else none

/-- Witness for claim C3 on the concrete chunk `"E1\n?\nE2"`. -/
theorem claim_c3_witness :
    ['E', '1', '\n', '?', '\n', 'E', '2'].splitOn '\n' = [['E', '1'], ['?'], ['E', '2']] ∧
    dec3ex ['?'] = none ∧
    (processData dec3ex ParseInfo.empty ['E', '1', '\n', '?', '\n', 'E', '2']).errors =
      ParseInfo.empty.errors ++ [⟨jsOr m3a.error m3a.message, messagePosition m3a⟩,
        ⟨jsOr m3b.error m3b.message, messagePosition m3b⟩] ∧
    (processData dec3ex ParseInfo.empty ['E', '1', '\n', '?', '\n', 'E', '2']).warnings =
      ParseInfo.empty.warnings ∧
    (processData dec3ex ParseInfo.empty ['E', '1', '\n', '?', '\n', 'E', '2']).«variables» =
      ParseInfo.empty.«variables» := by
  have h := claim_c3 dec3ex ParseInfo.empty
    ['E', '1', '\n', '?', '\n', 'E', '2'] ['E', '1'] ['?'] ['E', '2'] m3a m3b
    (by decide) (by decide) (by decide) (by decide) (by decide) (by decide)
    (by decide) (by decide) (by decide)
  exact ⟨by decide, by decide, h.1, h.2.1, h.2.2⟩

/- ### Claims C4, C5, C6 (the process runner) -/

/-- Replaying a block of stdout chunks folds them through the stream
decoder before any terminal event is considered. -/
theorem settleEvents_data_append (dec : List Char → Option RawMessage)
    (info : ParseInfo) (datas : List (List Char)) (es : List ProcEvent) :
    settleEvents dec info (datas.map ProcEvent.data ++ es) =
      settleEvents dec (datas.foldl (processData dec) info) es := by
  induction datas generalizing info with
  | nil => rfl
  | cons d ds ih =>
    simp only [List.map_cons, List.cons_append, settleEvents, List.foldl_cons]
    exact ih _

/-- Claim C4: a run whose subprocess launches and closes with a non-zero
exit status still resolves (it is not rejected), carrying the `ParseInfo`
accumulated from the stdout chunks seen before termination. -/
theorem claim_c4 (dec : List Char → Option RawMessage) (writeOk : Bool)
    (contents : List Char) (datas : List (List Char)) (code : Option Int)
    (h : code ≠ some 0) :
    (process dec true writeOk contents
        (datas.map ProcEvent.data ++ [ProcEvent.close code])).outcome =
      Outcome.resolved (datas.foldl (processData dec) ParseInfo.empty) := by
  simp [process, settleEvents_data_append, settleEvents]

/-- Warning record used by the claim C4 witness. -/
def m4w : RawMessage :=
  ⟨some typeWarning, none, some ("careful"), none, none, none, none, none, none⟩

/-- Concrete decoding function for the claim C4 witness: the single line
`w` decodes to the warning record `m4w`. -/
def dec4ex : List Char → Option RawMessage := fun l =>
  if l = ['w'] then some m4w else none

/-- Witness for claim C4: one valid warning line followed by exit status 1
resolves with exactly that warning entry. -/
theorem claim_c4_witness :
    (some (1 : Int) ≠ some 0) ∧
    (process dec4ex true true ['s']
        ([['w']].map ProcEvent.data ++ [ProcEvent.close (some 1)])).outcome =
      Outcome.resolved ⟨[], [⟨some ("careful"), none⟩], []⟩ := by
  have h := claim_c4 dec4ex true ['s'] [['w']] (some 1) (by decide)
  exact ⟨by decide, h.trans (by decide)⟩

/-- Decoding function that accepts no line, used by counterexamples and
witnesses that need no stdout decoding. -/
def decNoneEx : List Char → Option RawMessage := fun _ => none

/-- Claim C5 counterexample: when the stdin write fails the subprocess is
killed, but the run's promise is NOT rejected — once the killed child's
`close` event (with `null` code) fires, the close handler resolves the
promise with the empty accumulated result. -/
theorem claim_c5_counterexample :
    (process decNoneEx true false ['x'] [ProcEvent.close none]).killed = true ∧
    (process decNoneEx true false ['x'] [ProcEvent.close none]).outcome =
      Outcome.resolved ParseInfo.empty := by decide

/-- Claim C5 (amended): when writing the source text to the subprocess
fails, the subprocess is forcibly terminated (`child.kill()`) and nothing
is written, but the failure is only logged: the run's promise is not
rejected by the write path, and it resolves with the accumulated (possibly
empty) result when the close event arrives. -/
theorem claim_c5 (dec : List Char → Option RawMessage) (contents : List Char)
    (datas : List (List Char)) (code : Option Int) :
    (process dec true false contents
        (datas.map ProcEvent.data ++ [ProcEvent.close code])).killed = true ∧
    (process dec true false contents
        (datas.map ProcEvent.data ++ [ProcEvent.close code])).written = none ∧
    (process dec true false contents
        (datas.map ProcEvent.data ++ [ProcEvent.close code])).outcome =
      Outcome.resolved (datas.foldl (processData dec) ParseInfo.empty) := by
  refine ⟨?_, ?_, ?_⟩ <;> simp [process, settleEvents_data_append, settleEvents]

/-- Claim C6: when the subprocess fails to launch, the promise is rejected
immediately with the launch-failure indication; no `ParseInfo` is ever
created and nothing is written, so `errors`/`warnings`/`variables` are
never populated. -/
theorem claim_c6 (dec : List Char → Option RawMessage) (writeOk : Bool)
    (contents : List Char) (events : List ProcEvent) :
    (process dec false writeOk contents events).outcome =
      Outcome.rejected RejectReason.launchFailure ∧
    (process dec false writeOk contents events).info = none ∧
    (process dec false writeOk contents events).written = none := by
  refine ⟨rfl, rfl, rfl⟩

/- ### Claim C1 (the debounced scheduler) -/

/-- Firing timers on an idle scheduler (nothing pending, no timer armed)
does nothing and emits nothing. -/
theorem schedRun_fires_idle (rest : List SchedEvent) (h : allFire rest = true) :
    schedRun ⟨none, false⟩ rest = (⟨none, false⟩, []) := by
  induction rest with
  | nil => rfl
  | cons e es ih =>
    simp only [allFire, Bool.and_eq_true, beq_iff_eq] at h
    obtain ⟨he, hes⟩ := h
    subst he
    simp [schedRun, schedStep, runLintStep, ih hes]

/-- Claim C1: starting from a fresh scheduler, two `parse` calls with the
second arriving while the first's debounce timer is still armed reject the
first call's promise, and across any number of subsequent timer firings
only the second call's task is ever handed to the process runner — and a
successfully launched run writes exactly its task's source text to the
subprocess. -/
theorem claim_c1 (dec : List Char → Option RawMessage) (events : List ProcEvent)
    (p1 p2 : Nat) (c1 c2 : List Char) (rest : List SchedEvent)
    (h : allFire rest = true) :
    (schedRun initState
        ([SchedEvent.parseCall p1 c1, SchedEvent.parseCall p2 c2] ++ rest)).2 =
      SchedOut.rejectedPromise p1 ::
        (if rest = [] then [] else [SchedOut.started p2 c2]) ∧
    (process dec true true c2 events).written = some c2 := by
  constructor
  · simp only [List.cons_append, List.nil_append, schedRun, schedStep, parseStep,
      initState]
    cases rest with
    | nil => simp [schedRun]
    | cons e es =>
      simp only [allFire, Bool.and_eq_true, beq_iff_eq] at h
      obtain ⟨he, hes⟩ := h
      subst he
      simp [schedRun, schedStep, runLintStep, schedRun_fires_idle es hes]
  · simp [process]

/-- Witness for claim C1: two concrete `parse` calls followed by one timer
firing reject the first promise and start only the second task. -/
theorem claim_c1_witness :
    allFire [SchedEvent.fire] = true ∧
    (schedRun initState
        ([SchedEvent.parseCall 1 ['a'], SchedEvent.parseCall 2 ['b']] ++
          [SchedEvent.fire])).2 =
      SchedOut.rejectedPromise 1 ::
        (if ([SchedEvent.fire] : List SchedEvent) = [] then []
         else [SchedOut.started 2 ['b']]) ∧
    (process decNoneEx true true ['b'] []).written = some (['b']) := by
  have h := claim_c1 decNoneEx [] 1 2 ['a'] ['b'] [SchedEvent.fire] (by decide)
  exact ⟨by decide, h.1, h.2⟩

end SQFLint
